import Mathlib

/-!
Verification of `pkg/cache/cache.go` of eaceaser/controller-runtime: a
shallow embedding of the configuration-defaulting logic (`Default`, `New`,
`Options`) and, for the parts of the repository that live in the missing
`internal` package, definitions modelled from the specification (the
informer registry's GetOrCreate and WaitForCacheSync).

Go values are embedded as follows: pointer/interface fields that may be
nil become `Option`, `time.Duration` becomes `Nat` (nanoseconds), the
identities of `*runtime.Scheme` and `meta.RESTMapper` objects become
`Nat` tokens, `error` values become `Option String` carrying the message,
and the external fallible call `apiutil.NewDiscoveryRESTMapper(config)` is
a parameter `discover : Config → Except String Mapper`.
-/

namespace ControllerCache

/-- Identity token for a `*rest.Config` value. -/
abbrev Config : Type := Nat

/-- Identity token for a `*runtime.Scheme` value. -/
abbrev Scheme : Type := Nat

/-- Identity token for a `meta.RESTMapper` value. -/
abbrev Mapper : Type := Nat

/-- Embedding of `time.Duration`, in nanoseconds, matching Go's
representation. -/
abbrev Duration : Type := Nat

/-- The value of `time.Hour` in nanoseconds. -/
def timeHour : Duration := 3600000000000

/-- The process-wide built-in Kubernetes scheme
`k8s.io/client-go/kubernetes/scheme.Scheme`, a package-level variable:
one fixed object shared by the whole process, embedded as a fixed token. -/
def schemeScheme : Scheme := 0

/-- Embedding of `Options` from cache.go: the optional arguments for creating a new
InformersMap object.  Each field is a pointer or interface in Go, hence
`Option` here (`none` = nil = unset). -/
structure Options where
  scheme : Option Scheme
  mapper : Option Mapper
  resync : Option Duration
deriving DecidableEq, Repr

/-- The error message built by `fmt.Errorf` at cache.go:106.  Note the Go
code does not interpolate the underlying discovery error into it. -/
def restMapperErrMsg : String := "could not create RESTMapper from config"

/-- Embedding of `Default` from cache.go lines 94-116.  Fills unset fields of `opts`:
nil Scheme becomes the process-wide `scheme.Scheme`; nil Mapper is built
by the discovery call (on failure the error is logged — no semantic
effect — and `(opts, fmt.Errorf(...))` is returned immediately, before
the Resync defaulting runs); nil Resync becomes 10 hours.  Go passes
`opts` by value and returns the updated copy together with the error. -/
def Default (discover : Config → Except String Mapper) (config : Config)
    (opts : Options) : Options × Option String :=
  let o1 : Options :=
    match opts.scheme with
    | none => { opts with scheme := some schemeScheme }
    | some _ => opts
  match o1.mapper with
  | none =>
    match discover config with
    | Except.error _ => (o1, some restMapperErrMsg)
    | Except.ok m =>
      let o2 : Options := { o1 with mapper := some m }
      let o3 : Options :=
        match o2.resync with
        | none => { o2 with resync := some (10 * timeHour) }
        | some _ => o2
      (o3, none)
  | some _ =>
    let o3 : Options :=
      match o1.resync with
      | none => { o1 with resync := some (10 * timeHour) }
      | some _ => o1
    (o3, none)

/-- Embedding of `internal.InformersMap` as far as `New` observes it: the record of the
arguments `internal.NewInformersMap(config, opts.Scheme, opts.Mapper,
*opts.Resync)` is called with (cache.go:124). -/
structure InformersMap where
  config : Config
  scheme : Scheme
  mapper : Mapper
  resync : Duration
deriving DecidableEq, Repr

/-- Embedding of `internal.NewInformersMap`: its body is outside this
file's scope;
`New` only needs that it constructs an object from these arguments. -/
def NewInformersMap (config : Config) (s : Scheme) (m : Mapper)
    (r : Duration) : InformersMap :=
  ⟨config, s, m, r⟩

/-- Embedding of `informerCache` from cache.go:90-92: wraps an `internal.InformersMap`. -/
structure informerCache where
  informersMap : InformersMap
deriving DecidableEq, Repr

/-- Embedding of `New` from cache.go lines 119-126.  Runs `Default`; on error returns
`(nil, err)`; on success dereferences the now-populated fields (the
`getD` defaults are never reached on the success path, as the
fully-populated theorem shows) and wraps the InformersMap. -/
def New (discover : Config → Except String Mapper) (config : Config)
    (opts : Options) : Option informerCache × Option String :=
  match Default discover config opts with
  | (_, some e) => (none, some e)
  | (o, none) =>
    (some ⟨NewInformersMap config (o.scheme.getD 0) (o.mapper.getD 0)
      (o.resync.getD 0)⟩, none)

/-- A group-version-kind triple (`schema.GroupVersionKind`), the sole key
distinguishing informers. -/
structure KindKey where
  group : String
  version : String
  kind : String
deriving DecidableEq, Repr

/-- Modelled from the spec: the Informer Registry's state.  The code of
`internal.InformersMap` is not under src/; per the spec (§3, §4.1) it is
an owning map from KindKey to InformerEntry, entries being created
exactly once per key and never destroyed.  Entries carry an identity
(`Nat` id drawn from a construction counter `nextId`), so that "the
primitive constructor is invoked exactly once" and "every caller observes
the same entry instance" are observable. -/
structure RegistryState where
  entries : List (KindKey × Nat)
  nextId : Nat
deriving DecidableEq, Repr

/-- The empty registry a fresh cache starts with. -/
def RegistryState.init : RegistryState := ⟨[], 0⟩

/-- Association-list lookup of an entry id by KindKey. -/
def lookupEntry : List (KindKey × Nat) → KindKey → Option Nat
  | [], _ => none
  | (k₂, e) :: rest, k => if k₂ = k then some e else lookupEntry rest k

/-- Modelled from the spec: `GetOrCreate(kindKey) → (entry, created, err)`
(§4.1).  In its linearized (atomic) form: return the existing entry if
one is registered for the key, otherwise construct a fresh entry — the
single invocation of the primitive constructor for this key — register
it, and return it with `created = true`. -/
def getOrCreate (s : RegistryState) (k : KindKey) :
    RegistryState × Nat × Bool :=
  match lookupEntry s.entries k with
  | some e => (s, e, false)
  | none =>
    (⟨(k, s.nextId) :: s.entries, s.nextId + 1⟩, s.nextId, true)

/-- Run a sequence of `getOrCreate` requests — an arbitrary linearization
of concurrent callers — returning the final state and, per request, the
key it asked for, the entry id it observed and its `created` flag. -/
def runRequests (s : RegistryState) :
    List KindKey → RegistryState × List (KindKey × Nat × Bool)
  | [] => (s, [])
  | k :: rest =>
    ((runRequests (getOrCreate s k).1 rest).1,
     (k, (getOrCreate s k).2.1, (getOrCreate s k).2.2) ::
       (runRequests (getOrCreate s k).1 rest).2)

/-- How many of the responses for key `k` reported `created = true`,
i.e. how often the primitive constructor ran for `k`. -/
def constructionsFor (k : KindKey) :
    List (KindKey × Nat × Bool) → Nat
  | [] => 0
  | r :: rest =>
    (if r.1 = k ∧ r.2.2 = true then 1 else 0) + constructionsFor k rest

/-- The entry ids observed by the callers that requested key `k`. -/
def entryIdsFor (k : KindKey) :
    List (KindKey × Nat × Bool) → List Nat
  | [] => []
  | r :: rest =>
    if r.1 = k then r.2.1 :: entryIdsFor k rest else entryIdsFor k rest

/-- All elements of the list are equal (to the head, hence pairwise). -/
def allSame : List Nat → Bool
  | [] => true
  | e :: rest => rest.all (fun x => x = e)

/-- Modelled from the spec: per-entry sync state for
`WaitForAllSynced` / `WaitForCacheSync` (§4.1, §8).  An entry is
described by the instant its initial list completes (`none` = never);
`HasSynced()` at time `t` is true once that instant has passed —
sync state is monotone (a synced primitive stays synced). -/
def hasSyncedAt (syncedAt : Option Nat) (t : Nat) : Bool :=
  match syncedAt with
  | some s => s ≤ t
  | none => false

/-- All currently-registered entries report synced at time `t`. -/
def allSynced (entries : List (Option Nat)) (t : Nat) : Bool :=
  entries.all (fun e => hasSyncedAt e t)

/-- Modelled from the spec: the polling loop of `WaitForCacheSync` from
time `t` on, with the cancellation signal firing at time `cancelAt`.
At each instant before cancellation it checks whether every entry has
synced and returns true if so; once cancellation fires it returns false
regardless of what would happen later. -/
def waitFrom (entries : List (Option Nat)) (cancelAt : Nat) (t : Nat) :
    Bool :=
  if t < cancelAt then
    if allSynced entries t then true
    else waitFrom entries cancelAt (t + 1)
  else false
termination_by cancelAt - t

/-- Modelled from the spec: `WaitForCacheSync(stop) → bool`
(cache.go:62-63; body in the missing `internal` package): blocks until
every currently-registered entry reports synced, or the stop channel
closes (at time `cancelAt`), returning false in the latter case. -/
def WaitForCacheSync (entries : List (Option Nat)) (cancelAt : Nat) :
    Bool :=
  waitFrom entries cancelAt 0

/-- C1: if the mapper is unset in the supplied Options and the discovery
call fails, `New` returns an error together with a nil cache — no partial
cache object is handed to the caller. -/
theorem new_aborts_on_discovery_failure
    (d : Config → Except String Mapper) (c : Config) (o : Options)
    (e : String) (hm : o.mapper = none) (hd : d c = Except.error e) :
    New d c o = (none, some restMapperErrMsg) := by
  cases hs : o.scheme <;> simp [New, Default, hs, hm, hd]

/-- Witness for C1 at a concrete failing discovery call. -/
theorem new_aborts_on_discovery_failure_witness :
    New (fun _ => Except.error "boom") 0 ⟨none, none, none⟩ =
      (none, some restMapperErrMsg) :=
  new_aborts_on_discovery_failure (fun _ => Except.error "boom") 0
    ⟨none, none, none⟩ "boom" rfl rfl

/-- C3: when the Resync field is unset and `Default` succeeds, the
resulting configuration's resync interval is exactly 10 hours
(`10 * time.Hour`). -/
theorem default_resync_is_ten_hours
    (d : Config → Except String Mapper) (c : Config) (o : Options)
    (hr : o.resync = none) (hok : (Default d c o).2 = none) :
    (Default d c o).1.resync = some (10 * timeHour) := by
  cases hs : o.scheme <;> cases hm : o.mapper <;>
    simp only [Default, hs, hm] at hok ⊢ <;>
    cases hd : d c <;> simp [hd, hr] at hok ⊢

/-- Witness for C3: unset resync, mapper supplied, so no error occurs. -/
theorem default_resync_is_ten_hours_witness :
    (Default (fun _ => Except.error "boom") 0 ⟨none, some 7, none⟩).1.resync
      = some (10 * timeHour) :=
  default_resync_is_ten_hours (fun _ => Except.error "boom") 0
    ⟨none, some 7, none⟩ rfl rfl

/-- C4: when the Scheme field is unset, the resulting configuration's
scheme is the process-wide built-in Kubernetes scheme `scheme.Scheme`
(not a freshly constructed object) — on the error path too, since the
scheme is defaulted before the discovery call. -/
theorem default_scheme_is_process_wide
    (d : Config → Except String Mapper) (c : Config) (o : Options)
    (hs : o.scheme = none) :
    (Default d c o).1.scheme = some schemeScheme := by
  cases hm : o.mapper <;> simp only [Default, hs, hm] <;>
    cases hd : d c <;> cases hr : o.resync <;> simp [hd, hr]

/-- Witness for C4 at a concrete unset-scheme Options value. -/
theorem default_scheme_is_process_wide_witness :
    (Default (fun _ => Except.ok 3) 0 ⟨none, none, none⟩).1.scheme
      = some schemeScheme :=
  default_scheme_is_process_wide (fun _ => Except.ok 3) 0
    ⟨none, none, none⟩ rfl

/-- C5: `Default` only fills gaps — every field that was already set
appears unchanged in the Options it returns.  (The other half of the
claim, that the caller's own Options value is not mutated in place, holds
because Go passes `opts` by value and `Default` only assigns to its local
copy; in this pure embedding it holds by construction.) -/
theorem default_preserves_set_fields
    (d : Config → Except String Mapper) (c : Config) (o : Options) :
    (∀ s, o.scheme = some s → (Default d c o).1.scheme = some s) ∧
    (∀ m, o.mapper = some m → (Default d c o).1.mapper = some m) ∧
    (∀ r, o.resync = some r → (Default d c o).1.resync = some r) := by
  refine ⟨fun s hs => ?_, fun m hm => ?_, fun r hr => ?_⟩ <;>
    (cases hs2 : o.scheme <;> cases hm2 : o.mapper <;>
      cases hr2 : o.resync <;>
      simp only [Default, hs2, hm2, hr2] <;>
      cases hd : d c <;> simp_all)

/-- Witness for C5: all three fields set; each is returned unchanged. -/
theorem default_preserves_set_fields_witness :
    (Default (fun _ => Except.ok 3) 0 ⟨some 1, some 2, some 5⟩).1.scheme
        = some 1 ∧
    (Default (fun _ => Except.ok 3) 0 ⟨some 1, some 2, some 5⟩).1.mapper
        = some 2 ∧
    (Default (fun _ => Except.ok 3) 0 ⟨some 1, some 2, some 5⟩).1.resync
        = some 5 :=
  ⟨(default_preserves_set_fields (fun _ => Except.ok 3) 0
      ⟨some 1, some 2, some 5⟩).1 1 rfl,
   (default_preserves_set_fields (fun _ => Except.ok 3) 0
      ⟨some 1, some 2, some 5⟩).2.1 2 rfl,
   (default_preserves_set_fields (fun _ => Except.ok 3) 0
      ⟨some 1, some 2, some 5⟩).2.2 5 rfl⟩

/-- C6: whenever `Default` returns without error, the returned Options is
fully populated — Scheme, Mapper and Resync are all non-nil. -/
theorem default_success_fully_populated
    (d : Config → Except String Mapper) (c : Config) (o : Options)
    (hok : (Default d c o).2 = none) :
    (Default d c o).1.scheme.isSome ∧ (Default d c o).1.mapper.isSome ∧
      (Default d c o).1.resync.isSome := by
  cases hs : o.scheme <;> cases hm : o.mapper <;>
    simp only [Default, hs, hm] at hok ⊢ <;>
    cases hd : d c <;> cases hr : o.resync <;>
    simp [hs, hm, hd, hr] at hok ⊢

/-- Witness for C6 on an entirely unset Options with succeeding
discovery. -/
theorem default_success_fully_populated_witness :
    (Default (fun _ => Except.ok 3) 0 ⟨none, none, none⟩).1.scheme.isSome ∧
    (Default (fun _ => Except.ok 3) 0 ⟨none, none, none⟩).1.mapper.isSome ∧
    (Default (fun _ => Except.ok 3) 0 ⟨none, none, none⟩).1.resync.isSome :=
  default_success_fully_populated (fun _ => Except.ok 3) 0
    ⟨none, none, none⟩ rfl

/-- C9: when the Mapper field is already set, `Default` and `New` never
return an error — the discovery call is the sole error source and is
skipped entirely. -/
theorem mapper_set_implies_no_error
    (d : Config → Except String Mapper) (c : Config) (o : Options)
    (m : Mapper) (hm : o.mapper = some m) :
    (Default d c o).2 = none ∧ (New d c o).2 = none ∧
      (New d c o).1.isSome := by
  cases hs : o.scheme <;> cases hr : o.resync <;>
    simp [New, Default, hs, hm, hr]

/-- Witness for C9: mapper supplied, discovery would fail if called. -/
theorem mapper_set_implies_no_error_witness :
    (Default (fun _ => Except.error "boom") 0 ⟨none, some 2, none⟩).2
        = none ∧
    (New (fun _ => Except.error "boom") 0 ⟨none, some 2, none⟩).2 = none ∧
    (New (fun _ => Except.error "boom") 0 ⟨none, some 2, none⟩).1.isSome :=
  mapper_set_implies_no_error (fun _ => Except.error "boom") 0
    ⟨none, some 2, none⟩ 2 rfl

/-- C10: defaulting is not atomic on error — when discovery fails,
`Default` still returns an Options in which the Scheme default has
already been applied (Scheme is non-nil) while Resync is left exactly as
supplied. -/
theorem default_partial_on_error
    (d : Config → Except String Mapper) (c : Config) (o : Options)
    (e : String) (hm : o.mapper = none) (hd : d c = Except.error e) :
    (Default d c o).2 = some restMapperErrMsg ∧
      (Default d c o).1.scheme.isSome ∧
      (Default d c o).1.resync = o.resync := by
  cases hs : o.scheme <;> simp [Default, hs, hm, hd]

/-- Witness for C10: scheme and resync unset, discovery fails; the
returned Options has the scheme filled and resync still unset. -/
theorem default_partial_on_error_witness :
    (Default (fun _ => Except.error "boom") 0 ⟨none, none, none⟩).2
        = some restMapperErrMsg ∧
    (Default (fun _ => Except.error "boom") 0
        ⟨none, none, none⟩).1.scheme.isSome ∧
    (Default (fun _ => Except.error "boom") 0 ⟨none, none, none⟩).1.resync
        = (⟨none, none, none⟩ : Options).resync :=
  default_partial_on_error (fun _ => Except.error "boom") 0
    ⟨none, none, none⟩ "boom" rfl rfl

/-- C8 counterexample: the error returned on a failed discovery call does
NOT carry the underlying cause.  `fmt.Errorf("could not create RESTMapper
from config")` at cache.go:106 interpolates nothing: two discovery
failures with different underlying errors ("boom" and "zap") yield the
identical returned error, so the returned error cannot carry the
underlying cause (it is only logged, not propagated). -/
theorem discovery_error_drops_cause :
    (Default (fun _ => Except.error "boom") 0 ⟨none, none, none⟩).2 =
      (Default (fun _ => Except.error "zap") 0 ⟨none, none, none⟩).2 ∧
    (Default (fun _ => Except.error "boom") 0 ⟨none, none, none⟩).2 =
      some restMapperErrMsg ∧
    "boom" ≠ "zap" := by
  refine ⟨rfl, rfl, ?_⟩; decide

/-- C8 amended: every construction-time failure is wrapped with a fixed
message identifying the failing stage — discovery failure always surfaces
as "could not create RESTMapper from config", from both `Default` and
`New` — but the error does not carry the underlying cause. -/
theorem discovery_error_identifies_stage
    (d : Config → Except String Mapper) (c : Config) (o : Options)
    (e : String) (hm : o.mapper = none) (hd : d c = Except.error e) :
    (Default d c o).2 = some restMapperErrMsg ∧
      (New d c o).2 = some restMapperErrMsg := by
  cases hs : o.scheme <;> simp [New, Default, hs, hm, hd]

/-- Witness for the amended C8 at a concrete failing discovery call. -/
theorem discovery_error_identifies_stage_witness :
    (Default (fun _ => Except.error "boom") 0 ⟨none, none, none⟩).2
        = some restMapperErrMsg ∧
    (New (fun _ => Except.error "boom") 0 ⟨none, none, none⟩).2
        = some restMapperErrMsg :=
  discovery_error_identifies_stage (fun _ => Except.error "boom") 0
    ⟨none, none, none⟩ "boom" rfl rfl

/-- An entry registered for `k` survives any later `getOrCreate`: only
absent keys are ever added, existing bindings are never replaced. -/
theorem lookupEntry_getOrCreate_preserve (s : RegistryState)
    (k k₂ : KindKey) (e : Nat) (h : lookupEntry s.entries k = some e) :
    lookupEntry (getOrCreate s k₂).1.entries k = some e := by
  unfold getOrCreate
  cases hl : lookupEntry s.entries k₂ with
  | some e₂ => simpa using h
  | none =>
    by_cases hk : k₂ = k
    · subst hk; rw [h] at hl; cases hl
    · simpa [lookupEntry, hk] using h

/-- An entry registered for `k` survives any request sequence. -/
theorem lookupEntry_runRequests_preserve (reqs : List KindKey)
    (s : RegistryState) (k : KindKey) (e : Nat)
    (h : lookupEntry s.entries k = some e) :
    lookupEntry (runRequests s reqs).1.entries k = some e := by
  induction reqs generalizing s with
  | nil => simpa [runRequests] using h
  | cons k₂ rest ih =>
    simpa [runRequests] using
      ih (getOrCreate s k₂).1 (lookupEntry_getOrCreate_preserve s k k₂ e h)

/-- Right after `getOrCreate s k`, the registry maps `k` to exactly the
entry id the call returned. -/
theorem getOrCreate_lookup_self (s : RegistryState) (k : KindKey) :
    lookupEntry (getOrCreate s k).1.entries k =
      some (getOrCreate s k).2.1 := by
  unfold getOrCreate
  cases hl : lookupEntry s.entries k with
  | some e => simpa using hl
  | none => simp [lookupEntry]

/-- Every response a caller receives for key `k` is the id the final
registry maps `k` to: all callers observe the one registered entry. -/
theorem response_id_registered (reqs : List KindKey) (s : RegistryState)
    (k : KindKey) (e : Nat) (c : Bool)
    (h : (k, e, c) ∈ (runRequests s reqs).2) :
    lookupEntry (runRequests s reqs).1.entries k = some e := by
  induction reqs generalizing s with
  | nil => simp [runRequests] at h
  | cons k₂ rest ih =>
    simp only [runRequests, List.mem_cons] at h
    rcases h with h | h
    · obtain ⟨hk, he, -⟩ :
          k = k₂ ∧ e = (getOrCreate s k₂).2.1 ∧
            c = (getOrCreate s k₂).2.2 := by
        simpa [Prod.ext_iff] using h
      subst hk; subst he
      exact lookupEntry_runRequests_preserve rest _ k _
        (getOrCreate_lookup_self s k)
    · exact ih (getOrCreate s k₂).1 h

/-- The primitive constructor for `k` runs exactly once along a request
sequence when `k` is requested and not yet registered, and never
otherwise. -/
theorem constructionsFor_runRequests (reqs : List KindKey)
    (s : RegistryState) (k : KindKey) :
    constructionsFor k (runRequests s reqs).2 =
      if k ∈ reqs ∧ lookupEntry s.entries k = none then 1 else 0 := by
  induction reqs generalizing s with
  | nil => simp [runRequests, constructionsFor]
  | cons k₂ rest ih =>
    simp only [runRequests, constructionsFor]
    rw [ih]
    by_cases hk : k₂ = k
    · subst hk
      cases hl : lookupEntry s.entries k₂ with
      | some e₂ => simp [getOrCreate, hl]
      | none => simp [getOrCreate, hl, lookupEntry]
    · have hk2 : ¬ (k = k₂) := fun h => hk h.symm
      cases hl : lookupEntry s.entries k₂ with
      | some e₂ => simp [getOrCreate, hl, hk, hk2]
      | none => simp [getOrCreate, hl, hk, hk2, lookupEntry]

/-- A list whose elements are pairwise equal passes `allSame`. -/
theorem allSame_of_pairwise_eq (l : List Nat)
    (h : ∀ x ∈ l, ∀ y ∈ l, x = y) : allSame l = true := by
  cases l with
  | nil => rfl
  | cons e rest =>
    simp only [allSame, List.all_eq_true, decide_eq_true_eq]
    intro x hx
    exact h x (List.mem_cons_of_mem _ hx) e (List.mem_cons_self _ _)

/-- Each id in `entryIdsFor k out` comes from some response for `k`. -/
theorem mem_entryIdsFor (k : KindKey) (out : List (KindKey × Nat × Bool))
    (x : Nat) (h : x ∈ entryIdsFor k out) : ∃ c, (k, x, c) ∈ out := by
  induction out with
  | nil => simp [entryIdsFor] at h
  | cons r rest ih =>
    simp only [entryIdsFor] at h
    by_cases hr : r.1 = k
    · rw [if_pos hr] at h
      rcases List.mem_cons.mp h with h | h
      · exact ⟨r.2.2, by rw [h, ← hr]; exact List.mem_cons_self _ _⟩
      · obtain ⟨c, hc⟩ := ih h
        exact ⟨c, List.mem_cons_of_mem _ hc⟩
    · rw [if_neg hr] at h
      obtain ⟨c, hc⟩ := ih h
      exact ⟨c, List.mem_cons_of_mem _ hc⟩

/-- C2: for every KindKey `k`, along any linearization of concurrent
`GetOrCreate` requests starting from a fresh registry, if `k` is
requested at all then the primitive constructor is invoked exactly once
for `k`, and every caller that requested `k` — before, during or after
the construction — observed the same entry. -/
theorem single_construction_under_contention (reqs : List KindKey)
    (k : KindKey) (hk : k ∈ reqs) :
    constructionsFor k (runRequests RegistryState.init reqs).2 = 1 ∧
    allSame (entryIdsFor k (runRequests RegistryState.init reqs).2)
      = true := by
  constructor
  · rw [constructionsFor_runRequests]
    simp [RegistryState.init, lookupEntry, hk]
  · apply allSame_of_pairwise_eq
    intro x hx y hy
    obtain ⟨cx, hcx⟩ := mem_entryIdsFor _ _ _ hx
    obtain ⟨cy, hcy⟩ := mem_entryIdsFor _ _ _ hy
    have h1 := response_id_registered reqs RegistryState.init k x cx hcx
    have h2 := response_id_registered reqs RegistryState.init k y cy hcy
    exact Option.some.inj (h1.symm.trans h2)

/-- Witness for C2: three interleaved requests, two of them for the same
kind; that kind's constructor ran once and both callers saw entry 0. -/
theorem single_construction_under_contention_witness :
    constructionsFor ⟨"apps", "v1", "Deployment"⟩
        (runRequests RegistryState.init
          [⟨"apps", "v1", "Deployment"⟩, ⟨"", "v1", "Pod"⟩,
           ⟨"apps", "v1", "Deployment"⟩]).2 = 1 ∧
    allSame (entryIdsFor ⟨"apps", "v1", "Deployment"⟩
        (runRequests RegistryState.init
          [⟨"apps", "v1", "Deployment"⟩, ⟨"", "v1", "Pod"⟩,
           ⟨"apps", "v1", "Deployment"⟩]).2) = true :=
  single_construction_under_contention _ _ (List.mem_cons_self _ _)

/-- The polling loop returns true exactly when some instant at or after
its start and strictly before cancellation has every entry synced. -/
theorem waitFrom_true_iff (entries : List (Option Nat))
    (cancelAt t : Nat) :
    waitFrom entries cancelAt t = true ↔
      ∃ u, t ≤ u ∧ u < cancelAt ∧ allSynced entries u = true := by
  have key : ∀ n t, cancelAt - t = n →
      (waitFrom entries cancelAt t = true ↔
        ∃ u, t ≤ u ∧ u < cancelAt ∧ allSynced entries u = true) := by
    intro n
    induction n with
    | zero =>
      intro t hn
      have hnot : ¬ t < cancelAt := by omega
      rw [waitFrom]
      simp only [if_neg hnot]
      constructor
      · intro h; cases h
      · rintro ⟨u, hu, hc, -⟩; omega
    | succ n ih =>
      intro t hn
      have hlt : t < cancelAt := by omega
      rw [waitFrom]
      by_cases hs : allSynced entries t = true
      · rw [if_pos hlt, if_pos hs]
        exact iff_of_true rfl ⟨t, Nat.le_refl t, hlt, hs⟩
      · rw [if_pos hlt, if_neg hs, ih (t + 1) (by omega)]
        constructor
        · rintro ⟨u, hu, hc, ha⟩
          exact ⟨u, by omega, hc, ha⟩
        · rintro ⟨u, hu, hc, ha⟩
          have hut : u ≠ t := fun h => hs (h ▸ ha)
          exact ⟨u, by omega, hc, ha⟩
  exact key (cancelAt - t) t rfl

/-- C7: provided the cancellation signal has not already fired at entry
(`0 < cancelAt`), `WaitForCacheSync` returns true iff every
currently-registered entry syncs strictly before the cancellation
instant; if cancellation fires first it returns false, even when every
entry would have synced at some later instant. -/
theorem waitForCacheSync_iff_all_synced_before_cancel
    (entries : List (Option Nat)) (cancelAt : Nat)
    (hpos : 0 < cancelAt) :
    WaitForCacheSync entries cancelAt = true ↔
      ∀ e ∈ entries, ∃ s, e = some s ∧ s < cancelAt := by
  rw [WaitForCacheSync, waitFrom_true_iff]
  constructor
  · rintro ⟨u, -, hc, ha⟩ e he
    have hsy := (List.all_eq_true.mp ha) e he
    cases e with
    | none => simp [hasSyncedAt] at hsy
    | some s =>
      refine ⟨s, rfl, ?_⟩
      simp only [hasSyncedAt, decide_eq_true_eq] at hsy
      omega
  · intro h
    refine ⟨cancelAt - 1, Nat.zero_le _, by omega, ?_⟩
    rw [allSynced, List.all_eq_true]
    intro e he
    obtain ⟨s, rfl, hsc⟩ := h e he
    simp only [hasSyncedAt, decide_eq_true_eq]
    omega

/-- Witness for C7: two entries syncing at instants 0 and 2 with
cancellation at instant 3 — the wait succeeds. -/
theorem waitForCacheSync_iff_all_synced_before_cancel_witness :
    WaitForCacheSync [some 0, some 2] 3 = true :=
  (waitForCacheSync_iff_all_synced_before_cancel [some 0, some 2] 3
      (by decide)).mpr
    (by
      intro e he
      rcases List.mem_cons.mp he with rfl | he
      · exact ⟨0, rfl, by omega⟩
      rcases List.mem_cons.mp he with rfl | he
      · exact ⟨2, rfl, by omega⟩
      · cases he)

end ControllerCache
